import Mathlib

/-!
Verification development for the paulclean booking backend.

The definitions below are a shallow embedding of the Python sources:
* `app/api/public_pricing.py` — `PricingCalculator` and its three per-block
  helpers (`_calculate_quantity_price`, `_calculate_type_price`,
  `_calculate_toggle_price`);
* `app/services.py` — `OrderService.calculate_order_total`,
  `OrderService.check_timeslot_availability`,
  `OrderService.get_available_timeslots`;
* `app/api/admin.py` — `update_order_status`;
* `app/api/orders.py` — `create_order`.

Machine floats of the source are modelled as `ℚ` (exact rationals), Python
ints as `ℤ`, Python `None` as `Option`, and uncaught Python exceptions as
`Except` errors.  JSON values that can appear inside a type-choice options
payload are modelled by `JsonVal`, which keeps enough structure to decide
whether Python's `total_price += price` would raise a `TypeError`.
-/

/-- A JSON scalar as it can appear in the `price` field of a type-choice
options entry.  Python can add `float + int/float/bool`; adding a string,
null, array or object raises `TypeError`. -/
inductive JsonVal where
  | jnum (q : ℚ)
  | jbool (b : Bool)
  | jstr (s : String)
  | jnull
  | jarr
  | jobj
deriving DecidableEq

/-- Python `total_price += v` for an accumulated float `t`: numbers and
booleans add (booleans as 0/1), everything else raises `TypeError`
(modelled as `none`). -/
def jsonAdd (t : ℚ) (v : JsonVal) : Option ℚ :=
  match v with
  | .jnum q => some (t + q)
  | .jbool b => some (t + (if b then 1 else 0))
  | _ => none

/-- One element of the decoded JSON list stored in `TypeOption.options`.
`nonDict` stands for any list element that is not a JSON object: the code's
`opt.get("name")` then raises `AttributeError`, caught by the bare
`except`.  For an object, `name` is `some s` when the `"name"` key holds the
string `s` (a missing key or a non-string value never compares equal to the
selected type, so both are `none`), and `price` is the raw value of the
`"price"` key when present. -/
inductive TCItem where
  | nonDict
  | entry (name : Option String) (price : Option JsonVal)
deriving DecidableEq

/-- The decoded `TypeOption.options` payload: `malformed` when `json.loads`
raises or the decoded value is not iterable; `items l` when iteration over
the decoded value yields the sequence `l` (for a decoded JSON list these are
its elements; iterating a decoded object or string yields only non-dict
values, covered by `TCItem.nonDict`). -/
inductive TCPayload where
  | malformed
  | items (l : List TCItem)
deriving DecidableEq

/-- `QuantityOption` row (models/QuantityOption). -/
structure QuantityOption where
  name : String
  unit_price : ℚ
  min_quantity : ℤ
  max_quantity : ℤ
  unit_name : String
deriving DecidableEq

/-- `TypeOption` row; `options` is the decoded JSON payload. -/
structure TypeOption where
  name : String
  options : TCPayload
deriving DecidableEq

/-- `ToggleOption` row. -/
structure ToggleOption where
  name : String
  short_description : String
  percentage_increase : ℚ
deriving DecidableEq

/-- `PricingBlock` row together with its option rows (the relationship
attributes used by the calculator). -/
structure PricingBlock where
  id : ℤ
  name : String
  block_type : String
  order_index : ℤ
  is_active : Bool
  quantity_options : List QuantityOption
  type_options : List TypeOption
  toggle_option : Option ToggleOption
deriving DecidableEq

/-- A `Service` row with its pricing blocks (held in display order, as the
callers load them with `ORDER BY order_index`). -/
structure Service where
  id : ℤ
  name : String
  is_published : Bool
  pricing_blocks : List PricingBlock
deriving DecidableEq

/-- `PricingBlockSelection` from `schemas_pricing.py`: every field except
`block_id` is `Optional`. -/
structure PricingBlockSelection where
  block_id : ℤ
  quantity : Option ℤ := none
  selected_type : Option String := none
  toggle_enabled : Option Bool := none
deriving DecidableEq

/-- The dict returned by the three `_calculate_*_price` helpers.  Python
returns dicts with varying key sets; keys that a given branch does not set
are modelled as `none` (`dict.get("time_minutes", 0)` then yields 0). -/
structure PriceInfo where
  price : JsonVal
  description : String
  block_name : Option String := none
  block_type : Option String := none
  quantity : Option ℤ := none
  unit_price : Option ℚ := none
  selected_type : Option String := none
  enabled : Option Bool := none
  percentage_increase : Option ℚ := none
  time_minutes : Option ℤ := none
deriving DecidableEq

/-- `PricingCalculator._calculate_quantity_price`.  Note `selection.quantity
or 0`: both `None` and `0` give 0, i.e. `Option.getD 0`. -/
def calculate_quantity_price (block : PricingBlock) (sel : PricingBlockSelection) : PriceInfo :=
  match block.quantity_options.head? with
  | none => { price := .jnum 0, description := block.name ++ ": опция не настроена" }
  | some qo =>
    let q := sel.quantity.getD 0
    { price := .jnum (q * qo.unit_price)
      description := toString q ++ " " ++ qo.unit_name ++ " × $" ++ toString qo.unit_price
      block_name := some block.name
      block_type := some "quantity"
      quantity := some q
      unit_price := some qo.unit_price
      time_minutes := some (q * 15) }

/-- Scan of `next((opt for opt in options if opt.get("name") == selected_type), None)`
inside the helper's `try` block: hitting a non-dict element before a match
raises (`none` here, mapped to the `except` branch by the caller); otherwise
the first entry whose name equals `s` is returned. -/
def findTypeEntry (s : String) : List TCItem → Option (Option (Option JsonVal))
  | [] => some none
  | .nonDict :: _ => none
  | .entry nm pr :: rest =>
    if nm = some s then some (some pr) else findTypeEntry s rest

/-- `PricingCalculator._calculate_type_price`.  `if not selected_type`
is Python truthiness: both `None` and the empty string take the
"тип не выбран" branch. -/
def calculate_type_price (block : PricingBlock) (sel : PricingBlockSelection) : PriceInfo :=
  match block.type_options.head? with
  | none => { price := .jnum 0, description := block.name ++ ": опция не настроена" }
  | some t =>
    match sel.selected_type with
    | none => { price := .jnum 0, description := block.name ++ ": тип не выбран" }
    | some s =>
      if s = "" then { price := .jnum 0, description := block.name ++ ": тип не выбран" }
      else
        match t.options with
        | .malformed => { price := .jnum 0, description := block.name ++ ": ошибка в настройках" }
        | .items l =>
          match findTypeEntry s l with
          | none => { price := .jnum 0, description := block.name ++ ": ошибка в настройках" }
          | some none => { price := .jnum 0, description := block.name ++ ": выбранный тип не найден" }
          | some (some pr) =>
            { price := pr.getD (.jnum 0)
              description := block.name ++ ": " ++ s
              block_name := some block.name
              block_type := some "type_choice"
              selected_type := some s
              time_minutes := some 30 }

/-- `PricingCalculator._calculate_toggle_price`.  `if not
selection.toggle_enabled` treats both `None` and `False` as disabled. -/
def calculate_toggle_price (block : PricingBlock) (sel : PricingBlockSelection) : PriceInfo :=
  match block.toggle_option with
  | none => { price := .jnum 0, description := block.name ++ ": опция не настроена" }
  | some t =>
    if sel.toggle_enabled.getD false then
      { price := .jnum 0
        description := block.name ++ ": +" ++ toString t.percentage_increase ++ "%"
        block_name := some block.name
        block_type := some "toggle"
        enabled := some true
        percentage_increase := some t.percentage_increase
        time_minutes := some 0 }
    else
      { price := .jnum 0, description := block.name ++ ": отключено" }

/-- Result dict of `PricingCalculator.calculate_service_price`. -/
structure CalcResult where
  total_price : ℚ
  breakdown : List PriceInfo
  estimated_time_minutes : ℤ
deriving DecidableEq

/-- Errors that can escape the functions modelled here (uncaught Python
exceptions). -/
inductive PyErr where
  | typeErr
  | valueErr (msg : String)
  | nameErr (name : String)
deriving DecidableEq

/-- Accumulation of one `price_info` into the running totals:
`total_price += price_info["price"]` (can raise `TypeError`),
`breakdown.append(price_info)`,
`estimated_time += price_info.get("time_minutes", 0)`. -/
def accumInfo (acc : ℚ × List PriceInfo × ℤ) (info : PriceInfo) :
    Except PyErr (ℚ × List PriceInfo × ℤ) :=
  match jsonAdd acc.1 info.price with
  | none => .error .typeErr
  | some p => .ok (p, acc.2.1 ++ [info], acc.2.2 + info.time_minutes.getD 0)

/-- One iteration of the `for selection in pricing_data.pricing_blocks`
loop in `PricingCalculator.calculate_service_price`. -/
def calcStep (service : Service) (acc : ℚ × List PriceInfo × ℤ)
    (sel : PricingBlockSelection) : Except PyErr (ℚ × List PriceInfo × ℤ) :=
  match service.pricing_blocks.find? (fun b => b.id == sel.block_id) with
  | none => .ok acc
  | some block =>
    if !block.is_active then .ok acc
    else if block.block_type == "quantity" then
      accumInfo acc (calculate_quantity_price block sel)
    else if block.block_type == "type_choice" then
      accumInfo acc (calculate_type_price block sel)
    else if block.block_type == "toggle" then
      accumInfo acc (calculate_toggle_price block sel)
    else .ok acc

/-- `PricingCalculator.calculate_service_price`: iterates over the caller's
selections (not over the blocks), accumulating price, breakdown and
estimated time. -/
def calculate_service_price (service : Service) (selections : List PricingBlockSelection) :
    Except PyErr CalcResult := do
  let (p, bd, t) ← selections.foldlM (calcStep service) ((0 : ℚ), ([] : List PriceInfo), (0 : ℤ))
  return { total_price := p, breakdown := bd, estimated_time_minutes := t }

/-- Python `\s` whitespace for the ASCII range (what `strptime` accepts
between the date and time fields). -/
def isPySpace (c : Char) : Bool :=
  c = ' ' || c = '\t' || c = '\n' || c = '\r' || c = '\x0B' || c = '\x0C'

/-- Numeric value of a digit run. -/
def natOfDigits (ds : List Char) : ℕ :=
  ds.foldl (fun n c => 10 * n + (c.toNat - '0'.toNat)) 0

/-- Day count of a month, with the Gregorian leap rule (what
`datetime(year, month, day)` validates against). -/
def daysInMonth (y mo : ℕ) : ℕ :=
  let leap := (y % 4 = 0 ∧ y % 100 ≠ 0) ∨ y % 400 = 0
  if mo = 2 then (if leap then 29 else 28)
  else if mo = 4 ∨ mo = 6 ∨ mo = 9 ∨ mo = 11 then 30
  else if 1 ≤ mo ∧ mo ≤ 12 then 31
  else 0

/-- The `%Y-%m-%d` part of `strptime(f"{date} {time}", "%Y-%m-%d %H:%M")`,
applied to the `date` argument.  Mirrors CPython's `_strptime` regexes:
`%Y` is exactly four digits, `%m` and `%d` are one or two digits (a
backtracking regex whose language is exactly the 1-2 digit runs with value
in range, rejecting 0); `datetime` then validates the day against the month
and the year against `MINYEAR = 1`, raising `ValueError` (here `none`).
A run of trailing whitespace is permitted: the format's inner space matches
one or more whitespace characters, and the separator inserted by the
f-string guarantees at least one, so any whitespace tail of `date` is
absorbed by that run. -/
def parseDatePart (cs : List Char) : Option (ℕ × ℕ × ℕ) :=
  match cs with
  | y1 :: y2 :: y3 :: y4 :: '-' :: rest =>
    if y1.isDigit && y2.isDigit && y3.isDigit && y4.isDigit then
      let y := natOfDigits [y1, y2, y3, y4]
      let (mds, rest1) := rest.span Char.isDigit
      if 1 ≤ mds.length ∧ mds.length ≤ 2 ∧ 1 ≤ natOfDigits mds ∧ natOfDigits mds ≤ 12 then
        match rest1 with
        | '-' :: rest2 =>
          let (dds, rest3) := rest2.span Char.isDigit
          if 1 ≤ dds.length ∧ dds.length ≤ 2 ∧ 1 ≤ natOfDigits dds ∧
              natOfDigits dds ≤ daysInMonth y (natOfDigits mds) ∧ 1 ≤ y ∧
              rest3.all isPySpace then
            some (y, natOfDigits mds, natOfDigits dds)
          else none
        | _ => none
      else none
    else none
  | _ => none

/-- The `%H:%M` part, applied to the `time` argument: optional leading
whitespace (absorbed by the format's inner whitespace run), one or two
digits up to 23, a colon, one or two digits up to 59, and — because
`strptime` rejects unconverted trailing data — nothing else. -/
def parseTimePart (cs : List Char) : Option ℕ :=
  let cs1 := cs.dropWhile isPySpace
  let (hds, rest) := cs1.span Char.isDigit
  if 1 ≤ hds.length ∧ hds.length ≤ 2 ∧ natOfDigits hds ≤ 23 then
    match rest with
    | ':' :: rest2 =>
      let (mds, rest3) := rest2.span Char.isDigit
      if 1 ≤ mds.length ∧ mds.length ≤ 2 ∧ natOfDigits mds ≤ 59 ∧ rest3 = [] then
        some (natOfDigits hds * 60 + natOfDigits mds)
      else none
    | _ => none
  else none

/-- `datetime.strptime(f"{date} {time}", "%Y-%m-%d %H:%M")` as used by the
availability checker, returning minutes since midnight.  The combined
parse decomposes over the inserted separator: in any successful parse of
`date ++ " " ++ time`, the whitespace field must contain the inserted
space (otherwise the hour/minute fields would finish inside `date` and the
inserted space would remain unconverted), so the year/month/day fields and
any residual whitespace lie inside `date` and the hour/minute fields with
their leading whitespace lie inside `time`. -/
def parseDateTimeMin (date time : String) : Option ℕ :=
  if (parseDatePart date.toList).isSome then parseTimePart time.toList else none

/-- The configuration values of `app/config.py` consumed by the
availability checker (class defaults; no env overrides in the repo). -/
structure AppSettings where
  working_hours_start : String
  working_hours_end : String
  slot_duration_minutes : ℕ
deriving DecidableEq

/-- `settings` from `app/config.py`. -/
def settings : AppSettings :=
  { working_hours_start := "10:00", working_hours_end := "19:00", slot_duration_minutes := 30 }

/-- An `Order` row as read by the availability checker. -/
structure DbOrder where
  id : ℤ
  scheduled_date : String
  scheduled_time : String
  status : String
  total_duration_minutes : ℤ
deriving DecidableEq

/-- The SQL query of `check_timeslot_availability`: same date, blocking
status, and — only when `exclude_order_id` is truthy (a non-`None`,
non-zero int) — a different order id. -/
def blockingOrders (date : String) (exclude_order_id : Option ℤ) (orders : List DbOrder) :
    List DbOrder :=
  orders.filter (fun o =>
    o.scheduled_date == date &&
    (o.status == "Pending Confirmation" || o.status == "Confirmed") &&
    (match exclude_order_id with
     | some e => if e ≠ 0 then o.id != e else true
     | none => true))

/-- The `for order in existing_orders` loop: parse each stored order's
time (an unparseable stored time raises `ValueError` outside any `try`,
modelled as `.error ()`), and return `False` on the first half-open
overlap. -/
def overlapLoop (date : String) (s e : ℤ) : List DbOrder → Except Unit Bool
  | [] => .ok true
  | o :: rest =>
    match parseDateTimeMin date o.scheduled_time with
    | none => .error ()
    | some ot =>
      if s < (ot : ℤ) + o.total_duration_minutes ∧ e > (ot : ℤ) then .ok false
      else overlapLoop date s e rest

/-- `OrderService.check_timeslot_availability`.  A parse failure of the
candidate date/time is caught and yields `False`; the working-hours parse
sits outside the `try` (it can only fail if the candidate parse failed
first, so the `.error` branch there is unreachable); then the working-hours
bound and the overlap scan. -/
def check_timeslot_availability (date time : String) (duration_minutes : ℤ)
    (orders : List DbOrder) (exclude_order_id : Option ℤ) : Except Unit Bool :=
  match parseDateTimeMin date time with
  | none => .ok false
  | some t =>
    match parseDateTimeMin date settings.working_hours_start,
          parseDateTimeMin date settings.working_hours_end with
    | some ws, some we =>
      let s : ℤ := t
      let e := s + duration_minutes
      if s < (ws : ℤ) ∨ e > (we : ℤ) then .ok false
      else overlapLoop date s e (blockingOrders date exclude_order_id orders)
    | _, _ => .error ()

/-- The `while current_time < working_end` slot-generation loop of
`get_available_timeslots` (times in minutes since midnight; the guard
`0 < step` reflects that a zero step would never terminate — the configured
step is 30). -/
def genSlots (step cur endT : ℕ) : List ℕ :=
  if _h : 0 < step ∧ cur < endT then cur :: genSlots step (cur + step) endT else []
termination_by endT - cur
decreasing_by omega

/-- Two-digit zero padding of `strftime`. -/
def pad2 (n : ℕ) : String := if n < 10 then "0" ++ toString n else toString n

/-- `current_time.strftime("%H:%M")` for a minutes-since-midnight value. -/
def fmtHM (n : ℕ) : String := pad2 (n / 60) ++ ":" ++ pad2 (n % 60)

/-- The availability filter loop of `get_available_timeslots`: each slot is
probed with a fixed 120-minute duration and no exclusion. -/
def filterAvailable (date : String) (orders : List DbOrder) :
    List String → Except Unit (List String)
  | [] => .ok []
  | s :: rest => do
    let b ← check_timeslot_availability date s 120 orders none
    let r ← filterAvailable date orders rest
    return if b then s :: r else r

/-- `OrderService.get_available_timeslots`: generate slots from the
configured working-hours start, stepping by the configured granularity
while strictly before the working-hours end, then keep those for which the
availability check (with the fixed 120-minute probe) holds.  The
working-hours `strptime` calls sit outside any `try`, so an invalid date
raises (`.error ()`). -/
def get_available_timeslots (date : String) (orders : List DbOrder) :
    Except Unit (List String) :=
  match parseDateTimeMin date settings.working_hours_start,
        parseDateTimeMin date settings.working_hours_end with
  | some ws, some we =>
    filterAvailable date orders ((genSlots settings.slot_duration_minutes ws we).map fmtHM)
  | _, _ => .error ()

/-- Python's builtin `round` on an exact rational: nearest integer with
half-to-even ties (banker's rounding).  For the inputs arising here
(an int divided by 30, or a modest price times 100) the binary-float
rounding of the source cannot move the result across a tie, so the exact
rational model coincides with the float behaviour. -/
def pyRound (x : ℚ) : ℤ :=
  let f := ⌊x⌋
  let r := x - f
  if r < 1 / 2 then f
  else if 1 / 2 < r then f + 1
  else if f % 2 = 0 then f else f + 1

/-- `round(x, 2)` — rounding a price to two decimal places. -/
def round2 (x : ℚ) : ℚ := (pyRound (100 * x) : ℚ) / 100

/-- `round(total_duration / 30) * 30` — rounding a minute count to the
nearest multiple of 30 with half-to-even ties. -/
def roundDuration30 (n : ℤ) : ℤ := pyRound ((n : ℚ) / 30) * 30

/-- `ServiceParameters` from `schemas.py`: every field is `Optional` with a
default, so an explicit JSON `null` yields `None` (`Option.none`). -/
structure ServiceParameters where
  removable_cushion_count : Option ℤ := some 0
  unremovable_cushion_count : Option ℤ := some 0
  pillow_count : Option ℤ := some 0
  window_count : Option ℤ := some 0
  rug_width : Option ℚ := some 0
  rug_length : Option ℚ := some 0
  rug_count : Option ℤ := some 1
  base_cleaning : Option Bool := some false
  pet_hair : Option Bool := some false
  urine_stains : Option Bool := some false
  accelerated_drying : Option Bool := some false
deriving DecidableEq

/-- `OrderItemCreate` from `schemas.py`. -/
structure OrderItemCreate where
  service_id : ℤ
  parameters : ServiceParameters
deriving DecidableEq

/-- Sublist-at-any-position test over character lists. -/
def sublistAt (needle : List Char) : List Char → Bool
  | [] => needle == []
  | hay@(_ :: t) => needle.isPrefixOf hay || sublistAt needle t

/-- Python's `needle in hay` on strings. -/
def pyIn (needle hay : String) : Bool := sublistAt needle.toList hay.toList

/-- Python's `str.lower()` (ASCII range, which covers the block names the
matching is applied to). -/
def pyLower (s : String) : String := String.mk (s.toList.map Char.toLower)

/-- Python `a + b` on two `Optional[int]`s: `None` on either side raises
`TypeError`. -/
def pyAddOpt (a b : Option ℤ) : Except PyErr ℤ :=
  match a, b with
  | some x, some y => .ok (x + y)
  | _, _ => .error .typeErr

/-- The selection-building block of `calculate_order_total` (duplicated in
`calculate_order`): map `ServiceParameters` onto a `PricingBlockSelection`
by substring-matching the block's lowercased name.  Only the cushion branch
adds two parameter fields and can raise on `None`; the other branches
assign the (possibly `None`) field directly.  `selected_type` is never
set, so type-choice blocks always take the "тип не выбран" path in the
calculator. -/
def build_selection (block : PricingBlock) (p : ServiceParameters) :
    Except PyErr PricingBlockSelection :=
  let nameL := pyLower block.name
  if block.block_type == "quantity" then
    if pyIn "cushion" nameL then do
      let q ← pyAddOpt p.removable_cushion_count p.unremovable_cushion_count
      return { block_id := block.id, quantity := some q }
    else if pyIn "pillow" nameL then .ok { block_id := block.id, quantity := p.pillow_count }
    else if pyIn "window" nameL then .ok { block_id := block.id, quantity := p.window_count }
    else if pyIn "rug" nameL then .ok { block_id := block.id, quantity := p.rug_count }
    else .ok { block_id := block.id }
  else if block.block_type == "toggle" then
    if pyIn "base" nameL || pyIn "cleaning" nameL then
      .ok { block_id := block.id, toggle_enabled := p.base_cleaning }
    else if pyIn "pet" nameL || pyIn "hair" nameL then
      .ok { block_id := block.id, toggle_enabled := p.pet_hair }
    else if pyIn "urine" nameL || pyIn "stain" nameL then
      .ok { block_id := block.id, toggle_enabled := p.urine_stains }
    else if pyIn "drying" nameL || pyIn "accelerated" nameL then
      .ok { block_id := block.id, toggle_enabled := p.accelerated_drying }
    else .ok { block_id := block.id }
  else .ok { block_id := block.id }

/-- The per-item body of `calculate_order_total`: look up the service
(`ValueError` if absent), keep only its active pricing blocks (the `ORDER
BY order_index` of the query preserves the stored display order), build one
selection per block, and run the pricing calculator. -/
def item_pricing (services : List Service) (item : OrderItemCreate) : Except PyErr CalcResult :=
  match services.find? (fun s => s.id == item.service_id) with
  | none => .error (.valueErr ("Service with id " ++ toString item.service_id ++ " not found"))
  | some service => do
    let pbs := service.pricing_blocks.filter (fun b => b.is_active)
    let sels ← pbs.mapM (fun b => build_selection b item.parameters)
    calculate_service_price { service with pricing_blocks := pbs } sels

/-- The `for item in order_items` accumulation loop of
`calculate_order_total`. -/
def orderTotalLoop (services : List Service) :
    List OrderItemCreate → ℚ → ℤ → Except PyErr (ℚ × ℤ)
  | [], p, t => .ok (p, t)
  | item :: rest, p, t => do
    let r ← item_pricing services item
    orderTotalLoop services rest (p + r.total_price) (t + r.estimated_time_minutes)

/-- `OrderService.calculate_order_total`: sum the per-item pricing results,
then round the price to 2 decimals and the duration to the nearest
30-minute multiple. -/
def calculate_order_total (order_items : List OrderItemCreate) (services : List Service) :
    Except PyErr (ℚ × ℤ) := do
  let (p, t) ← orderTotalLoop services order_items 0 0
  return (round2 p, roundDuration30 t)

/-- Order status enumeration (`OrderStatus` in `models.py`; the stored
string is the enum's value). -/
inductive OrderStatus where
  | pending_confirmation
  | confirmed
  | completed
  | cancelled
deriving DecidableEq

/-- The stored string value of a status. -/
def statusValue : OrderStatus → String
  | .pending_confirmation => "Pending Confirmation"
  | .confirmed => "Confirmed"
  | .completed => "Completed"
  | .cancelled => "Cancelled"

/-- The `valid_transitions` dict of `update_order_status` in
`app/api/admin.py` (the stored status string is looked up through the
str-mixin enum, whose hash and equality agree with the plain string). -/
def valid_transitions : OrderStatus → List OrderStatus
  | .pending_confirmation => [.confirmed, .cancelled]
  | .confirmed => [.completed, .cancelled]
  | .completed => []
  | .cancelled => []

/-- The mutable fields of an order that `update_order_status` can touch. -/
structure AdminOrderState where
  status : OrderStatus
  notes : Option String
deriving DecidableEq

/-- `update_order_status` (admin endpoint), after the 404 lookup: reject
with a 400 invalid-transition error when the requested status is not in
the current status's transition list — leaving the order untouched —
otherwise store the new status (and the notes, when truthy). -/
def update_order_status (order : AdminOrderState) (new_status : OrderStatus)
    (notes : Option String) : Except String AdminOrderState :=
  if new_status ∈ valid_transitions order.status then
    .ok { status := new_status
          notes := match notes with
                   | some n => if n = "" then order.notes else some n
                   | none => order.notes }
  else
    .error ("Invalid status transition from " ++ statusValue order.status ++
      " to " ++ statusValue new_status)

/-- `OrderCreate` from `schemas.py` (the fields `create_order` reads). -/
structure OrderCreateReq where
  scheduled_date : String
  scheduled_time : String
  order_items : List OrderItemCreate
  notes : Option String
deriving DecidableEq

/-- A persisted `Order` row as written by `create_order`. -/
structure OrderRow where
  client_id : ℤ
  scheduled_date : String
  scheduled_time : String
  total_duration_minutes : ℤ
  total_price : ℚ
  status : String
  notes : Option String
deriving DecidableEq

/-- A persisted `OrderItem` row (cost/duration snapshot fields). -/
structure OrderItemRow where
  service_id : ℤ
  calculated_cost : ℚ
  calculated_time_minutes : ℤ
deriving DecidableEq

/-- The error responses `create_order` can produce. -/
inductive ApiError where
  | badRequest (detail : String)
  | unprocessable (detail : String)
  | internalError (e : PyErr)
deriving DecidableEq

instance {ε α : Type} [DecidableEq ε] [DecidableEq α] : DecidableEq (Except ε α) := fun x y =>
  match x, y with
  | .ok a, .ok b =>
    if h : a = b then isTrue (by rw [h]) else isFalse (by intro hc; cases hc; exact h rfl)
  | .error a, .error b =>
    if h : a = b then isTrue (by rw [h]) else isFalse (by intro hc; cases hc; exact h rfl)
  | .ok _, .error _ => isFalse (by intro hc; cases hc)
  | .error _, .ok _ => isFalse (by intro hc; cases hc)

/-- What a `create_order` request leaves behind: the order row committed
before the item loop (if reached), the committed item rows, and the HTTP
response. -/
structure CreateOrderOutcome where
  persisted_order : Option OrderRow
  persisted_items : List OrderItemRow
  response : Except ApiError OrderRow
deriving DecidableEq

/-- `create_order` from `app/api/orders.py`: price the items (a
`ValueError` becomes a 400, any other exception propagates), check the
timeslot (false is a 422), commit the `Order` row, then build the
`OrderItem` rows.  The item loop's first statement calls
`PricingService.calculate_service_cost`, but `PricingService` is neither
imported nor defined anywhere under `app/` (`services.py` notes it was
deleted), so a non-empty item list raises `NameError` after the order was
already committed, and no `OrderItem` row is ever written. -/
def create_order (client_id : ℤ) (req : OrderCreateReq) (services : List Service)
    (orders : List DbOrder) : CreateOrderOutcome :=
  match calculate_order_total req.order_items services with
  | .error (.valueErr m) => ⟨none, [], .error (.badRequest m)⟩
  | .error e => ⟨none, [], .error (.internalError e)⟩
  | .ok (p, dur) =>
    match check_timeslot_availability req.scheduled_date req.scheduled_time dur orders none with
    | .error _ => ⟨none, [], .error (.internalError (.valueErr "unparseable stored order time"))⟩
    | .ok false => ⟨none, [], .error (.unprocessable "Selected timeslot is not available")⟩
    | .ok true =>
      let order : OrderRow :=
        { client_id := client_id
          scheduled_date := req.scheduled_date
          scheduled_time := req.scheduled_time
          total_duration_minutes := dur
          total_price := p
          status := "Pending Confirmation"
          notes := req.notes }
      match req.order_items with
      | [] => ⟨some order, [], .ok order⟩
      | _ :: _ => ⟨some order, [], .error (.internalError (.nameErr "PricingService"))⟩

/-- The transition pairs the admin endpoint's `valid_transitions` table is
claimed to permit. -/
def allowedPairs : List (OrderStatus × OrderStatus) :=
  [(.pending_confirmation, .confirmed), (.pending_confirmation, .cancelled),
   (.confirmed, .completed), (.confirmed, .cancelled)]

/-- Fixture: a quantity pricing block for windows at $25 per unit. -/
def winBlock : PricingBlock :=
  { id := 1, name := "Windows", block_type := "quantity", order_index := 0,
    is_active := true,
    quantity_options := [{ name := "Окна", unit_price := 25, min_quantity := 1,
                           max_quantity := 20, unit_name := "window" }],
    type_options := [], toggle_option := none }

/-- Fixture: a published service owning `winBlock`. -/
def winService : Service :=
  { id := 1, name := "Window Cleaning", is_published := true, pricing_blocks := [winBlock] }

/-- Fixture: an order-creation request whose one item selects zero windows
(all `ServiceParameters` defaults). -/
def zeroReq : OrderCreateReq :=
  { scheduled_date := "2099-06-15", scheduled_time := "10:00",
    order_items := [{ service_id := 1, parameters := {} }], notes := none }

/-- Fixture: an order-creation request whose one item selects two windows. -/
def twoWinReq : OrderCreateReq :=
  { scheduled_date := "2099-06-15", scheduled_time := "10:00",
    order_items := [{ service_id := 1, parameters := { window_count := some 2 } }],
    notes := none }

/-!
Theorems.  Each claim of the specification is settled by exactly one
theorem below (with a witness instantiation where the theorem carries
hypotheses); shared helper lemmas precede them.
-/

theorem calcStep_quantity (service : Service) (sel : PricingBlockSelection)
    (block : PricingBlock)
    (hfind : service.pricing_blocks.find? (fun b => b.id == sel.block_id) = some block)
    (hact : block.is_active = true)
    (htype : block.block_type = "quantity")
    (acc : ℚ × List PriceInfo × ℤ) :
    calcStep service acc sel = accumInfo acc (calculate_quantity_price block sel) := by
  simp [calcStep, hfind, hact, htype]

/-- C1: for every selection on an active quantity-kind block with a
configured quantity option, with effective quantity `q` equal to the
selection's quantity if provided else 0, and `q ∈ [0, max_quantity]`, the
block's price contribution is `q × unit_price` and its time contribution
is `q × 15` minutes. -/
theorem quantity_block_contribution (block : PricingBlock) (sel : PricingBlockSelection)
    (qo : QuantityOption) (l : List QuantityOption) (q : ℤ)
    (hact : block.is_active = true)
    (hconf : block.quantity_options = qo :: l)
    (hq : q = sel.quantity.getD 0)
    (hlo : 0 ≤ q) (hhi : q ≤ qo.max_quantity) :
    (calculate_quantity_price block sel).price = JsonVal.jnum ((q : ℚ) * qo.unit_price) ∧
    (calculate_quantity_price block sel).time_minutes = some (q * 15) := by
  subst hq
  simp [calculate_quantity_price, hconf]

theorem quantity_block_contribution_witness :
    (calculate_quantity_price winBlock ⟨1, some 5, none, none⟩).price =
      JsonVal.jnum (((5 : ℤ) : ℚ) * 25) ∧
    (calculate_quantity_price winBlock ⟨1, some 5, none, none⟩).time_minutes =
      some (5 * 15) :=
  quantity_block_contribution winBlock ⟨1, some 5, none, none⟩
    { name := "Окна", unit_price := 25, min_quantity := 1, max_quantity := 20,
      unit_name := "window" } [] 5 rfl rfl rfl (by norm_num) (by norm_num)

/-- C3: for every selection on an active toggle-kind block with a
configured toggle option: if `toggle_enabled` is false or absent the
contribution is zero price and zero time; if it is true, the breakdown
records the configured `percentage_increase` but the direct price
contribution is 0 and the time contribution is 0. -/
theorem toggle_block_contribution (block : PricingBlock) (sel : PricingBlockSelection)
    (t : ToggleOption)
    (hact : block.is_active = true)
    (hconf : block.toggle_option = some t) :
    (sel.toggle_enabled.getD false = false →
      (calculate_toggle_price block sel).price = JsonVal.jnum 0 ∧
      (calculate_toggle_price block sel).time_minutes.getD 0 = 0) ∧
    (sel.toggle_enabled = some true →
      (calculate_toggle_price block sel).price = JsonVal.jnum 0 ∧
      (calculate_toggle_price block sel).time_minutes.getD 0 = 0 ∧
      (calculate_toggle_price block sel).percentage_increase =
        some t.percentage_increase) := by
  constructor
  · intro h
    simp [calculate_toggle_price, hconf, h]
  · intro h
    simp [calculate_toggle_price, hconf, h]

theorem toggle_block_contribution_witness :
    (calculate_toggle_price
        ⟨2, "Pet Hair", "toggle", 0, true, [], [], some ⟨"Pet Hair", "d", 15⟩⟩
        ⟨2, none, none, some true⟩).price = JsonVal.jnum 0 ∧
    (calculate_toggle_price
        ⟨2, "Pet Hair", "toggle", 0, true, [], [], some ⟨"Pet Hair", "d", 15⟩⟩
        ⟨2, none, none, some true⟩).time_minutes.getD 0 = 0 ∧
    (calculate_toggle_price
        ⟨2, "Pet Hair", "toggle", 0, true, [], [], some ⟨"Pet Hair", "d", 15⟩⟩
        ⟨2, none, none, some true⟩).percentage_increase = some 15 :=
  (toggle_block_contribution
    ⟨2, "Pet Hair", "toggle", 0, true, [], [], some ⟨"Pet Hair", "d", 15⟩⟩
    ⟨2, none, none, some true⟩ ⟨"Pet Hair", "d", 15⟩ rfl rfl).2 rfl

/-- C2 counterexample: a type-choice options payload containing a
configured entry whose name is the empty string, selected with exactly
that (empty) name.  The claim demands that entry's price (5) plus 30
minutes; the code's truthiness test `if not selected_type` fires first and
contributes zero with the "тип не выбран" note. -/
theorem type_choice_empty_name_cex :
    (calculate_type_price
        ⟨3, "Fabric", "type_choice", 0, true, [],
          [⟨"Тип ткани", TCPayload.items [TCItem.entry (some "") (some (JsonVal.jnum 5))]⟩],
          none⟩
        ⟨3, none, some "", none⟩).price = JsonVal.jnum 0 ∧
    (calculate_type_price
        ⟨3, "Fabric", "type_choice", 0, true, [],
          [⟨"Тип ткани", TCPayload.items [TCItem.entry (some "") (some (JsonVal.jnum 5))]⟩],
          none⟩
        ⟨3, none, some "", none⟩).description = "Fabric: тип не выбран" ∧
    ¬ ((calculate_type_price
        ⟨3, "Fabric", "type_choice", 0, true, [],
          [⟨"Тип ткани", TCPayload.items [TCItem.entry (some "") (some (JsonVal.jnum 5))]⟩],
          none⟩
        ⟨3, none, some "", none⟩).price = JsonVal.jnum 5 ∧
      (calculate_type_price
        ⟨3, "Fabric", "type_choice", 0, true, [],
          [⟨"Тип ткани", TCPayload.items [TCItem.entry (some "") (some (JsonVal.jnum 5))]⟩],
          none⟩
        ⟨3, none, some "", none⟩).time_minutes = some 30) := by
  refine ⟨rfl, rfl, ?_⟩
  intro h
  exact absurd h.2 (by decide)

/-- C2 (amended): for every selection on an active type-choice-kind block:
if the block has no configured `TypeOption` row at all, the contribution is
zero with the "опция не настроена" note; otherwise, if the selected type
is provided, non-empty and `findTypeEntry` resolves it to a configured
entry, the contribution is that entry's price (`"price"` key, defaulting
to 0) plus 30 minutes; if the name resolves to no entry, or the payload is
malformed (including a scan that hits a non-dict element), or the selected
type is absent or empty, the contribution is zero with a descriptive
breakdown entry; the helper is total (the bare `except` converts every
internal failure into the zero contribution — it never raises). -/
theorem calculate_type_price_spec (block : PricingBlock) (sel : PricingBlockSelection)
    (hact : block.is_active = true) :
    (block.type_options = [] →
      (calculate_type_price block sel).price = JsonVal.jnum 0 ∧
      (calculate_type_price block sel).description =
        block.name ++ ": опция не настроена" ∧
      (calculate_type_price block sel).time_minutes = none) ∧
    (∀ t ts, block.type_options = t :: ts →
      (∀ s l pr, sel.selected_type = some s → s ≠ "" → t.options = .items l →
        findTypeEntry s l = some (some pr) →
        (calculate_type_price block sel).price = pr.getD (JsonVal.jnum 0) ∧
        (calculate_type_price block sel).time_minutes = some 30) ∧
      (∀ s l, sel.selected_type = some s → s ≠ "" → t.options = .items l →
        findTypeEntry s l = some none →
        (calculate_type_price block sel).price = JsonVal.jnum 0 ∧
        (calculate_type_price block sel).description =
          block.name ++ ": выбранный тип не найден" ∧
        (calculate_type_price block sel).time_minutes = none) ∧
      (∀ s, sel.selected_type = some s → s ≠ "" →
        (t.options = .malformed ∨ ∃ l, t.options = .items l ∧ findTypeEntry s l = none) →
        (calculate_type_price block sel).price = JsonVal.jnum 0 ∧
        (calculate_type_price block sel).description =
          block.name ++ ": ошибка в настройках" ∧
        (calculate_type_price block sel).time_minutes = none) ∧
      ((sel.selected_type = none ∨ sel.selected_type = some "") →
        (calculate_type_price block sel).price = JsonVal.jnum 0 ∧
        (calculate_type_price block sel).description = block.name ++ ": тип не выбран" ∧
        (calculate_type_price block sel).time_minutes = none)) := by
  constructor
  · intro hmiss
    simp [calculate_type_price, hmiss]
  · intro t ts hconf
    refine ⟨?_, ?_, ?_, ?_⟩
    · intro s l pr hs hne hopt hfind
      simp [calculate_type_price, hconf, hs, hne, hopt, hfind]
    · intro s l hs hne hopt hfind
      simp [calculate_type_price, hconf, hs, hne, hopt, hfind]
    · intro s hs hne hcase
      rcases hcase with hmal | ⟨l, hopt, hfind⟩
      · simp [calculate_type_price, hconf, hs, hne, hmal]
      · simp [calculate_type_price, hconf, hs, hne, hopt, hfind]
    · intro hcase
      rcases hcase with hnone | hempty
      · simp [calculate_type_price, hconf, hnone]
      · simp [calculate_type_price, hconf, hempty]

theorem calculate_type_price_spec_witness :
    (calculate_type_price
        ⟨4, "Fabric", "type_choice", 0, true, [],
          [⟨"Тип ткани", TCPayload.items
            [TCItem.entry (some "cotton") (some (JsonVal.jnum 10)),
             TCItem.entry (some "silk") (some (JsonVal.jnum 40))]⟩], none⟩
        ⟨4, none, some "silk", none⟩).price =
      (some (JsonVal.jnum 40)).getD (JsonVal.jnum 0) ∧
    (calculate_type_price
        ⟨4, "Fabric", "type_choice", 0, true, [],
          [⟨"Тип ткани", TCPayload.items
            [TCItem.entry (some "cotton") (some (JsonVal.jnum 10)),
             TCItem.entry (some "silk") (some (JsonVal.jnum 40))]⟩], none⟩
        ⟨4, none, some "silk", none⟩).time_minutes = some 30 :=
  ((calculate_type_price_spec
    ⟨4, "Fabric", "type_choice", 0, true, [],
      [⟨"Тип ткани", TCPayload.items
        [TCItem.entry (some "cotton") (some (JsonVal.jnum 10)),
         TCItem.entry (some "silk") (some (JsonVal.jnum 40))]⟩], none⟩
    ⟨4, none, some "silk", none⟩ rfl).2
    ⟨"Тип ткани", TCPayload.items
      [TCItem.entry (some "cotton") (some (JsonVal.jnum 10)),
       TCItem.entry (some "silk") (some (JsonVal.jnum 40))]⟩ [] rfl).1
    "silk"
    [TCItem.entry (some "cotton") (some (JsonVal.jnum 10)),
     TCItem.entry (some "silk") (some (JsonVal.jnum 40))]
    (some (JsonVal.jnum 40)) rfl (by decide) rfl (by decide)

/-- C6: the status-update operation permits exactly the transitions
pending_confirmation→confirmed, pending_confirmation→cancelled,
confirmed→completed and confirmed→cancelled; completed and cancelled have
no outgoing transitions; every other requested transition is rejected with
an explicit invalid-transition error, in which case no updated order state
is produced (the stored entity is untouched). -/
theorem update_order_status_state_machine :
    ∀ (o : AdminOrderState) (new_status : OrderStatus) (notes : Option String),
      ((o.status, new_status) ∈ allowedPairs →
        update_order_status o new_status notes =
          .ok { status := new_status
                notes := match notes with
                         | some n => if n = "" then o.notes else some n
                         | none => o.notes }) ∧
      ((o.status, new_status) ∉ allowedPairs →
        update_order_status o new_status notes =
          .error ("Invalid status transition from " ++ statusValue o.status ++
            " to " ++ statusValue new_status)) := by
  rintro ⟨st, nts⟩ new notes
  dsimp only
  cases st <;> cases new <;>
    exact ⟨fun h => by first | rfl | exact absurd h (by decide),
           fun h => by first | rfl | exact absurd (by decide) h⟩

theorem update_order_status_state_machine_witness :
    update_order_status ⟨OrderStatus.completed, none⟩ OrderStatus.confirmed none =
      .error ("Invalid status transition from " ++ statusValue OrderStatus.completed ++
        " to " ++ statusValue OrderStatus.confirmed) :=
  (update_order_status_state_machine ⟨OrderStatus.completed, none⟩
    OrderStatus.confirmed none).2 (by decide)

/-- C10: the calculator iterates over the caller's selection list, so a
selection whose (active, configured, quantity-kind) block appears twice in
one request contributes twice: total price 2 × quantity × unit_price, time
2 × quantity × 15, and two breakdown entries — no deduplication by block
identifier. -/
theorem duplicated_selection_counts_twice (service : Service) (sel : PricingBlockSelection)
    (block : PricingBlock) (qo : QuantityOption) (l : List QuantityOption)
    (hfind : service.pricing_blocks.find? (fun b => b.id == sel.block_id) = some block)
    (hact : block.is_active = true)
    (htype : block.block_type = "quantity")
    (hconf : block.quantity_options = qo :: l) :
    calculate_service_price service [sel, sel] =
      .ok { total_price := 2 * (((sel.quantity.getD 0 : ℤ) : ℚ) * qo.unit_price)
            breakdown := [calculate_quantity_price block sel,
                          calculate_quantity_price block sel]
            estimated_time_minutes := 2 * (sel.quantity.getD 0 * 15) } := by
  have hstep := calcStep_quantity service sel block hfind hact htype
  have hprice : (calculate_quantity_price block sel).price =
      JsonVal.jnum (((sel.quantity.getD 0 : ℤ) : ℚ) * qo.unit_price) := by
    simp [calculate_quantity_price, hconf]
  have htime : (calculate_quantity_price block sel).time_minutes =
      some (sel.quantity.getD 0 * 15) := by
    simp [calculate_quantity_price, hconf]
  simp only [calculate_service_price, List.foldlM, hstep, accumInfo, hprice, htime,
    jsonAdd, Option.getD_some, bind, Except.bind]
  simp only [List.nil_append, List.singleton_append]
  refine congrArg Except.ok ?_
  refine CalcResult.mk.injEq .. ▸ ?_
  exact ⟨by ring, rfl, by ring⟩

theorem duplicated_selection_counts_twice_witness :
    calculate_service_price winService [⟨1, some 3, none, none⟩, ⟨1, some 3, none, none⟩] =
      .ok { total_price := 2 * (((3 : ℤ) : ℚ) * 25)
            breakdown := [calculate_quantity_price winBlock ⟨1, some 3, none, none⟩,
                          calculate_quantity_price winBlock ⟨1, some 3, none, none⟩]
            estimated_time_minutes := 2 * ((3 : ℤ) * 15) } :=
  duplicated_selection_counts_twice winService ⟨1, some 3, none, none⟩ winBlock
    { name := "Окна", unit_price := 25, min_quantity := 1, max_quantity := 20,
      unit_name := "window" } [] rfl rfl rfl rfl

theorem pyRound_eq (x : ℚ) :
    pyRound x =
      if x - ⌊x⌋ < 1 / 2 then ⌊x⌋
      else if 1 / 2 < x - ⌊x⌋ then ⌊x⌋ + 1
      else if ⌊x⌋ % 2 = 0 then ⌊x⌋ else ⌊x⌋ + 1 := rfl

theorem roundDuration30_nearest (n : ℤ) :
    roundDuration30 n % 30 = 0 ∧ |roundDuration30 n - n| ≤ 15 := by
  have h30 : ((30 : ℚ)) = ((30 : ℕ) : ℚ) := by norm_num
  have hfloor : ⌊(n : ℚ) / 30⌋ = n / 30 := by
    rw [h30, Rat.floor_intCast_div_natCast]
    norm_num
  have hn : n = 30 * (n / 30) + n % 30 := by omega
  have hm0 : 0 ≤ n % 30 := by omega
  have hm30 : n % 30 < 30 := by omega
  have hcast : (n : ℚ) / 30 - ((n / 30 : ℤ) : ℚ) = ((n % 30 : ℤ) : ℚ) / 30 := by
    have hq : (n : ℚ) = 30 * ((n / 30 : ℤ) : ℚ) + ((n % 30 : ℤ) : ℚ) := by
      exact_mod_cast hn
    rw [hq]
    ring
  have c1 : ((n % 30 : ℤ) : ℚ) / 30 < 1 / 2 ↔ n % 30 < 15 := by
    rw [div_lt_iff₀ (by norm_num : (0 : ℚ) < 30)]
    constructor
    · intro h; exact_mod_cast (by linarith : ((n % 30 : ℤ) : ℚ) < 15)
    · intro h; have : ((n % 30 : ℤ) : ℚ) < 15 := by exact_mod_cast h
      linarith
  have c2 : 1 / 2 < ((n % 30 : ℤ) : ℚ) / 30 ↔ 15 < n % 30 := by
    rw [lt_div_iff₀ (by norm_num : (0 : ℚ) < 30)]
    constructor
    · intro h; exact_mod_cast (by linarith : (15 : ℚ) < ((n % 30 : ℤ) : ℚ))
    · intro h; have : (15 : ℚ) < ((n % 30 : ℤ) : ℚ) := by exact_mod_cast h
      linarith
  unfold roundDuration30
  rw [pyRound_eq, hfloor, hcast]
  split_ifs with hc1 hc2 hc3
  · have := c1.mp hc1
    refine ⟨by omega, ?_⟩
    rw [abs_le]
    omega
  · have := c2.mp hc2
    refine ⟨by omega, ?_⟩
    rw [abs_le]
    omega
  · have h1 := c1.not.mp hc1
    have h2 := c2.not.mp hc2
    refine ⟨by omega, ?_⟩
    rw [abs_le]
    omega
  · have h1 := c1.not.mp hc1
    have h2 := c2.not.mp hc2
    refine ⟨by omega, ?_⟩
    rw [abs_le]
    omega

theorem orderTotalLoop_eq (services : List Service) (items : List OrderItemCreate) :
    ∀ (p : ℚ) (t : ℤ),
      orderTotalLoop services items p t =
        (items.mapM (item_pricing services)).map
          (fun rs => (p + (rs.map CalcResult.total_price).sum,
                      t + (rs.map CalcResult.estimated_time_minutes).sum)) := by
  induction items with
  | nil => intro p t; simp [orderTotalLoop, List.mapM, List.mapM.loop, pure, Except.pure, Except.map]
  | cons item rest ih =>
    intro p t
    simp only [orderTotalLoop, List.mapM_cons]
    cases h : item_pricing services item with
    | error e => simp [h, Except.map, bind, Except.bind]
    | ok r =>
      simp only [h, bind, Except.bind, ih]
      cases hm : rest.mapM (item_pricing services) with
      | error e => simp [Except.map]
      | ok rs =>
        simp only [Except.map, pure, Except.pure, List.map_cons, List.sum_cons]
        refine congrArg Except.ok ?_
        refine Prod.ext ?_ ?_
        · simp; ring
        · simp; ring

/-- C5: `calculate_order_total` returns the per-item pricing results
summed over all the order's items, with the total price rounded to two
decimal places and the total duration rounded to the nearest 30-minute
multiple (a multiple of 30 within 15 minutes of the exact sum) under the
single tie rule round-half-to-even: 105 → 120, 135 → 120, 165 → 180. -/
theorem calculate_order_total_spec :
    (∀ (items : List OrderItemCreate) (services : List Service),
      calculate_order_total items services =
        (items.mapM (item_pricing services)).map
          (fun rs => (round2 ((rs.map CalcResult.total_price).sum),
                      roundDuration30 ((rs.map CalcResult.estimated_time_minutes).sum)))) ∧
    (∀ n : ℤ, roundDuration30 n % 30 = 0 ∧ |roundDuration30 n - n| ≤ 15) ∧
    roundDuration30 105 = 120 ∧ roundDuration30 135 = 120 ∧ roundDuration30 165 = 180 := by
  refine ⟨?_, roundDuration30_nearest, ?_, ?_, ?_⟩
  · intro items services
    simp only [calculate_order_total, orderTotalLoop_eq services items 0 0]
    cases hm : items.mapM (item_pricing services) with
    | error e => simp [Except.map, bind, Except.bind]
    | ok rs => simp [Except.map, bind, Except.bind, pure, Except.pure]
  · norm_num [roundDuration30, pyRound]
  · norm_num [roundDuration30, pyRound]
  · norm_num [roundDuration30, pyRound]

/-- C7 (amended): every duration produced by `calculate_order_total` (the
value order submission stores as `total_duration_minutes`) is a multiple
of 30 — but not necessarily a positive one: zero is produced, e.g. when
every quantity selection is zero. -/
theorem total_duration_multiple_of_30 (items : List OrderItemCreate)
    (services : List Service) (p : ℚ) (d : ℤ)
    (h : calculate_order_total items services = .ok (p, d)) :
    d % 30 = 0 := by
  unfold calculate_order_total at h
  cases hl : orderTotalLoop services items 0 0 with
  | error e =>
    rw [hl] at h
    simp [bind, Except.bind] at h
  | ok pt =>
    obtain ⟨p0, t0⟩ := pt
    rw [hl] at h
    simp only [bind, Except.bind, pure, Except.pure, Except.ok.injEq, Prod.mk.injEq] at h
    have hd : d = roundDuration30 t0 := h.2.symm
    rw [hd]
    unfold roundDuration30
    omega

theorem total_duration_multiple_of_30_witness : (0 : ℤ) % 30 = 0 :=
  total_duration_multiple_of_30 [] [] 0 0
    (by norm_num [calculate_order_total, orderTotalLoop, round2, roundDuration30,
      pyRound, bind, Except.bind, pure, Except.pure])

theorem check_10am_duration0 :
    check_timeslot_availability "2099-06-15" "10:00" 0 [] none = .ok true := by decide

theorem check_10am_duration30 :
    check_timeslot_availability "2099-06-15" "10:00" 30 [] none = .ok true := by decide

theorem winService_find :
    [winService].find? (fun s => s.id == (1 : ℤ)) = some winService := by decide

theorem winService_active_blocks :
    winService.pricing_blocks.filter (fun b => b.is_active) = [winBlock] := by decide

theorem quantity_price_zero :
    (calculate_quantity_price winBlock ⟨1, some 0, none, none⟩).price = JsonVal.jnum 0 ∧
    (calculate_quantity_price winBlock ⟨1, some 0, none, none⟩).time_minutes = some 0 := by
  constructor
  · simp [calculate_quantity_price, winBlock]
  · simp [calculate_quantity_price, winBlock]

theorem calc_service_zero :
    calculate_service_price { winService with pricing_blocks := [winBlock] }
        [⟨1, some 0, none, none⟩] =
      .ok { total_price := 0
            breakdown := [calculate_quantity_price winBlock ⟨1, some 0, none, none⟩]
            estimated_time_minutes := 0 } := by
  have hfind : ({ winService with pricing_blocks := [winBlock] } : Service).pricing_blocks.find?
      (fun b => b.id == (⟨1, some 0, none, none⟩ : PricingBlockSelection).block_id) =
        some winBlock := by decide
  have hstep := calcStep_quantity { winService with pricing_blocks := [winBlock] }
    ⟨1, some 0, none, none⟩ winBlock hfind rfl rfl
  simp only [calculate_service_price, List.foldlM_cons, List.foldlM_nil, hstep, accumInfo,
    quantity_price_zero.1, quantity_price_zero.2, jsonAdd, Option.getD_some, bind, Except.bind,
    pure, Except.pure]
  simp

theorem item_pricing_zero :
    item_pricing [winService] ⟨1, {}⟩ =
      .ok { total_price := 0
            breakdown := [calculate_quantity_price winBlock ⟨1, some 0, none, none⟩]
            estimated_time_minutes := 0 } := by
  have hmap : [winBlock].mapM (fun b => build_selection b ({} : ServiceParameters)) =
      .ok [⟨1, some 0, none, none⟩] := by decide
  simp only [item_pricing, winService_find, winService_active_blocks, hmap, bind, Except.bind]
  exact calc_service_zero

theorem calculate_order_total_zero :
    calculate_order_total [⟨1, ({} : ServiceParameters)⟩] [winService] = .ok (0, 0) := by
  simp only [calculate_order_total, orderTotalLoop, item_pricing_zero, bind, Except.bind,
    pure, Except.pure]
  norm_num [round2, roundDuration30, pyRound]

/-- C7 counterexample: a fully valid order-creation request (one item,
zero windows selected) passes pricing and the availability check and
commits an `Order` row whose `total_duration_minutes` is 0 — a multiple of
30 that is not positive.  (The claim asserts every stored duration is a
positive multiple of 30.) -/
theorem order_with_zero_duration_cex :
    (create_order 7 zeroReq [winService] []).persisted_order =
      some { client_id := 7, scheduled_date := "2099-06-15", scheduled_time := "10:00",
             total_duration_minutes := 0, total_price := 0,
             status := "Pending Confirmation", notes := none } ∧
    ¬ (0 < (0 : ℤ)) := by
  constructor
  · simp only [create_order, calculate_order_total_zero, zeroReq, check_10am_duration0]
  · decide

/-- C8: `create_order` on a valid request that prices successfully (two
windows: $50, 30 minutes) and passes the availability check commits the
`Order` row but then raises `NameError` in the item loop — the
`PricingService` it calls was deleted from `app/services.py` and is neither
defined nor imported in `app/api/orders.py` — so no `OrderItem` row is ever
persisted and the request does not complete. -/
theorem create_order_raises_name_error :
    (create_order 7 twoWinReq [winService] []).response =
      .error (.internalError (.nameErr "PricingService")) ∧
    (create_order 7 twoWinReq [winService] []).persisted_items = [] ∧
    (create_order 7 twoWinReq [winService] []).persisted_order =
      some { client_id := 7, scheduled_date := "2099-06-15", scheduled_time := "10:00",
             total_duration_minutes := 30, total_price := 50,
             status := "Pending Confirmation", notes := none } := by
  have hq2 : (calculate_quantity_price winBlock ⟨1, some 2, none, none⟩).price =
      JsonVal.jnum 50 := by
    simp [calculate_quantity_price, winBlock]
    norm_num
  have ht2 : (calculate_quantity_price winBlock ⟨1, some 2, none, none⟩).time_minutes =
      some 30 := by
    simp [calculate_quantity_price, winBlock]
  have hfind : ({ winService with pricing_blocks := [winBlock] } : Service).pricing_blocks.find?
      (fun b => b.id == (⟨1, some 2, none, none⟩ : PricingBlockSelection).block_id) =
        some winBlock := by decide
  have hstep := calcStep_quantity { winService with pricing_blocks := [winBlock] }
    ⟨1, some 2, none, none⟩ winBlock hfind rfl rfl
  have hcsp : calculate_service_price { winService with pricing_blocks := [winBlock] }
      [⟨1, some 2, none, none⟩] =
      .ok { total_price := 50
            breakdown := [calculate_quantity_price winBlock ⟨1, some 2, none, none⟩]
            estimated_time_minutes := 30 } := by
    simp only [calculate_service_price, List.foldlM_cons, List.foldlM_nil, hstep, accumInfo,
      hq2, ht2, jsonAdd, Option.getD_some, bind, Except.bind, pure, Except.pure]
    simp
  have hmap : [winBlock].mapM
      (fun b => build_selection b ({ window_count := some 2 } : ServiceParameters)) =
      .ok [⟨1, some 2, none, none⟩] := by decide
  have hitem : item_pricing [winService] ⟨1, { window_count := some 2 }⟩ =
      .ok { total_price := 50
            breakdown := [calculate_quantity_price winBlock ⟨1, some 2, none, none⟩]
            estimated_time_minutes := 30 } := by
    simp only [item_pricing, winService_find, winService_active_blocks, hmap, bind, Except.bind]
    exact hcsp
  have hcot : calculate_order_total
      [⟨1, ({ window_count := some 2 } : ServiceParameters)⟩] [winService] = .ok (50, 30) := by
    simp only [calculate_order_total, orderTotalLoop, hitem, bind, Except.bind,
      pure, Except.pure]
    norm_num [round2, roundDuration30, pyRound]
  refine ⟨?_, ?_, ?_⟩ <;>
    simp only [create_order, hcot, twoWinReq, check_10am_duration30]

theorem candidate_parse_datePart (date time : String) (t : ℕ)
    (h : parseDateTimeMin date time = some t) :
    (parseDatePart date.toList).isSome = true := by
  simp [parseDateTimeMin] at h
  exact h.1

theorem parse_working_hours (date : String)
    (hd : (parseDatePart date.toList).isSome = true) :
    parseDateTimeMin date settings.working_hours_start = some 600 ∧
    parseDateTimeMin date settings.working_hours_end = some 1140 := by
  constructor <;> · simp only [parseDateTimeMin, settings, hd, if_true]; decide

theorem blocking_filter_iff (date : String) (excl : Option ℤ) (orders : List DbOrder)
    (hid : ∀ o ∈ orders, o.id ≠ 0) (o : DbOrder) :
    o ∈ blockingOrders date excl orders ↔
      o ∈ orders ∧ o.scheduled_date = date ∧
      (o.status = "Pending Confirmation" ∨ o.status = "Confirmed") ∧ excl ≠ some o.id := by
  simp only [blockingOrders, List.mem_filter, Bool.and_eq_true, Bool.or_eq_true, beq_iff_eq]
  constructor
  · rintro ⟨hmem, ⟨hdate, hstat⟩, hm⟩
    refine ⟨hmem, hdate, hstat, ?_⟩
    intro hc
    rw [hc] at hm
    have hido := hid o hmem
    simp [hido] at hm
  · rintro ⟨hmem, hdate, hstat, hne⟩
    refine ⟨hmem, ⟨hdate, hstat⟩, ?_⟩
    cases excl with
    | none => rfl
    | some e =>
      by_cases he : e = 0
      · simp [he]
      · have : o.id ≠ e := fun hc => hne (by rw [hc])
        simp [he, this]

theorem overlapLoop_iff (date : String) (s e : ℤ) (os : List DbOrder)
    (h : ∀ o ∈ os, (parseDateTimeMin date o.scheduled_time).isSome = true) :
    ∃ b, overlapLoop date s e os = .ok b ∧
      (b = true ↔ ∀ o ∈ os, ∀ ot : ℕ,
        parseDateTimeMin date o.scheduled_time = some ot →
        ¬ (s < (ot : ℤ) + o.total_duration_minutes ∧ e > (ot : ℤ))) := by
  induction os with
  | nil => exact ⟨true, rfl, by simp⟩
  | cons o rest ih =>
    obtain ⟨ot, hot⟩ := Option.isSome_iff_exists.mp (h o (List.mem_cons_self o rest))
    obtain ⟨b, hb, hiff⟩ := ih (fun o' ho' => h o' (List.mem_cons_of_mem o ho'))
    by_cases hov : s < (ot : ℤ) + o.total_duration_minutes ∧ e > (ot : ℤ)
    · refine ⟨false, by simp [overlapLoop, hot, hov], ?_⟩
      simp only [Bool.false_eq_true, false_iff]
      intro hall
      exact hall o (List.mem_cons_self o rest) ot hot hov
    · refine ⟨b, by simp [overlapLoop, hot, hov, hb], ?_⟩
      rw [hiff]
      constructor
      · intro hall o' ho' ot' hot'
        rcases List.mem_cons.mp ho' with rfl | hmem
        · rw [hot] at hot'
          injection hot' with hh
          subst hh
          exact hov
        · exact hall o' hmem ot' hot'
      · intro hall o' hmem ot' hot'
        exact hall o' (List.mem_cons_of_mem o hmem) ot' hot'

/-- C4: the availability check returns `.ok b` (never an exception, given
well-formed stored orders: nonzero ids, parseable stored times), and
`b = true` exactly when the date and time parse, the candidate interval
`[t, t+duration)` lies within the configured working hours (10:00 = 600 to
19:00 = 1140 minutes), and it does not overlap — in the half-open sense
`candidate_start < existing_end ∧ candidate_end > existing_start` — any
order on the same date with status `Pending Confirmation` or `Confirmed`
other than the one named by `exclude_order_id`.  Cancelled/completed
orders never block, a touching interval does not conflict (strict
inequalities), an unparseable candidate yields `false`, and the model is a
pure query. -/
theorem check_timeslot_availability_spec (date time : String) (dur : ℤ)
    (orders : List DbOrder) (excl : Option ℤ)
    (hid : ∀ o ∈ orders, o.id ≠ 0)
    (ht : ∀ o ∈ orders, (parseDateTimeMin date o.scheduled_time).isSome = true) :
    ∃ b, check_timeslot_availability date time dur orders excl = .ok b ∧
      (b = true ↔ ∃ t : ℕ, parseDateTimeMin date time = some t ∧
        600 ≤ (t : ℤ) ∧ (t : ℤ) + dur ≤ 1140 ∧
        ∀ o ∈ orders, o.scheduled_date = date →
          (o.status = "Pending Confirmation" ∨ o.status = "Confirmed") →
          excl ≠ some o.id →
          ∀ ot : ℕ, parseDateTimeMin date o.scheduled_time = some ot →
            ¬ ((t : ℤ) < (ot : ℤ) + o.total_duration_minutes ∧
               (t : ℤ) + dur > (ot : ℤ))) := by
  cases hp : parseDateTimeMin date time with
  | none =>
    refine ⟨false, by simp [check_timeslot_availability, hp], ?_⟩
    simp only [Bool.false_eq_true, false_iff]
    rintro ⟨t, hpt, -⟩
    cases hpt
  | some t =>
    have hd := candidate_parse_datePart date time t hp
    obtain ⟨hws, hwe⟩ := parse_working_hours date hd
    by_cases hbound : (t : ℤ) < 600 ∨ (t : ℤ) + dur > 1140
    · refine ⟨false, ?_, ?_⟩
      · simp only [check_timeslot_availability, hp, hws, hwe]
        rw [if_pos]
        exact_mod_cast hbound
      · simp only [Bool.false_eq_true, false_iff]
        rintro ⟨t', hpt', hlo, hhi, -⟩
        injection hpt' with he
        subst he
        omega
    · obtain ⟨b, hb, hiff⟩ := overlapLoop_iff date (t : ℤ) ((t : ℤ) + dur)
        (blockingOrders date excl orders)
        (fun o ho => ht o ((blocking_filter_iff date excl orders hid o).mp ho).1)
      refine ⟨b, ?_, ?_⟩
      · simp only [check_timeslot_availability, hp, hws, hwe]
        rw [if_neg, hb]
        exact_mod_cast hbound
      · rw [hiff]
        constructor
        · intro hall
          refine ⟨t, rfl, by omega, by omega, ?_⟩
          intro o ho hdate hstat hexcl ot hot
          exact hall o ((blocking_filter_iff date excl orders hid o).mpr
            ⟨ho, hdate, hstat, hexcl⟩) ot hot
        · rintro ⟨t', hpt', hlo, hhi, hall⟩ o ho ot hot
          injection hpt' with he
          subst he
          obtain ⟨hmem, hdate, hstat, hexcl⟩ := (blocking_filter_iff date excl orders hid o).mp ho
          exact hall o hmem hdate hstat hexcl ot hot

theorem check_timeslot_availability_spec_witness :
    ∃ b, check_timeslot_availability "2099-06-15" "14:00" 120
        [⟨1, "2099-06-15", "10:00", "Confirmed", 120⟩] none = .ok b ∧
      (b = true ↔ ∃ t : ℕ, parseDateTimeMin "2099-06-15" "14:00" = some t ∧
        600 ≤ (t : ℤ) ∧ (t : ℤ) + 120 ≤ 1140 ∧
        ∀ o ∈ [(⟨1, "2099-06-15", "10:00", "Confirmed", 120⟩ : DbOrder)],
          o.scheduled_date = "2099-06-15" →
          (o.status = "Pending Confirmation" ∨ o.status = "Confirmed") →
          (none : Option ℤ) ≠ some o.id →
          ∀ ot : ℕ, parseDateTimeMin "2099-06-15" o.scheduled_time = some ot →
            ¬ ((t : ℤ) < (ot : ℤ) + o.total_duration_minutes ∧
               (t : ℤ) + 120 > (ot : ℤ))) :=
  check_timeslot_availability_spec "2099-06-15" "14:00" 120
    [⟨1, "2099-06-15", "10:00", "Confirmed", 120⟩] none (by decide) (by decide)

theorem check_no_error (date time : String) (dur : ℤ) (orders : List DbOrder)
    (excl : Option ℤ)
    (ht : ∀ o ∈ orders, (parseDateTimeMin date o.scheduled_time).isSome = true) :
    ∃ b, check_timeslot_availability date time dur orders excl = .ok b := by
  cases hp : parseDateTimeMin date time with
  | none => exact ⟨false, by simp [check_timeslot_availability, hp]⟩
  | some t =>
    have hd := candidate_parse_datePart date time t hp
    obtain ⟨hws, hwe⟩ := parse_working_hours date hd
    by_cases hbound : (t : ℤ) < 600 ∨ (t : ℤ) + dur > 1140
    · refine ⟨false, ?_⟩
      simp only [check_timeslot_availability, hp, hws, hwe]
      rw [if_pos]
      exact_mod_cast hbound
    · obtain ⟨b, hb, -⟩ := overlapLoop_iff date (t : ℤ) ((t : ℤ) + dur)
        (blockingOrders date excl orders)
        (fun o ho => ht o (List.mem_of_mem_filter ho))
      refine ⟨b, ?_⟩
      simp only [check_timeslot_availability, hp, hws, hwe]
      rw [if_neg, hb]
      exact_mod_cast hbound

theorem filterAvailable_eq (date : String) (orders : List DbOrder)
    (ht : ∀ o ∈ orders, (parseDateTimeMin date o.scheduled_time).isSome = true)
    (slots : List String) :
    filterAvailable date orders slots =
      .ok (slots.filter
        (fun s => match check_timeslot_availability date s 120 orders none with
                  | .ok true => true
                  | _ => false)) := by
  induction slots with
  | nil => rfl
  | cons s rest ih =>
    obtain ⟨b, hb⟩ := check_no_error date s 120 orders none ht
    simp only [filterAvailable, hb, bind, Except.bind, ih, List.filter_cons]
    cases b with
    | true => simp [hb, pure, Except.pure]
    | false => simp [hb, pure, Except.pure]

theorem mem_genSlots30 (fuel : ℕ) : ∀ (cur endT m : ℕ), endT - cur ≤ fuel →
    (m ∈ genSlots 30 cur endT ↔ ∃ k : ℕ, m = cur + 30 * k ∧ m < endT) := by
  induction fuel with
  | zero =>
    intro cur endT m hle
    rw [genSlots, dif_neg (by omega : ¬((0:ℕ) < 30 ∧ cur < endT))]
    simp only [List.not_mem_nil, false_iff]
    rintro ⟨k, rfl, hm⟩
    omega
  | succ n ih =>
    intro cur endT m hle
    rw [genSlots]
    by_cases hc : cur < endT
    · rw [dif_pos ⟨by omega, hc⟩, List.mem_cons, ih (cur + 30) endT m (by omega)]
      constructor
      · rintro (rfl | ⟨k, rfl, hm⟩)
        · exact ⟨0, by omega, hc⟩
        · exact ⟨k + 1, by omega, hm⟩
      · rintro ⟨k, rfl, hm⟩
        cases k with
        | zero => left; omega
        | succ k => right; exact ⟨k, by omega, hm⟩
    · rw [dif_neg (by omega)]
      simp only [List.not_mem_nil, false_iff]
      rintro ⟨k, rfl, hm⟩
      omega

/-- C9: available-slot enumeration returns exactly the time-of-day points
generated from the configured working-hours start (600 = 10:00), stepping
by the configured slot granularity (30 minutes) while strictly before the
working-hours end (1140 = 19:00), filtered by the availability check with
a fixed 120-minute probe duration — the function takes no duration
parameter, so any caller's actual desired duration is ignored. -/
theorem get_available_timeslots_spec (date : String) (orders : List DbOrder)
    (hdate : (parseDatePart date.toList).isSome = true)
    (ht : ∀ o ∈ orders, (parseDateTimeMin date o.scheduled_time).isSome = true) :
    get_available_timeslots date orders =
      .ok (((genSlots settings.slot_duration_minutes 600 1140).map fmtHM).filter
        (fun s => match check_timeslot_availability date s 120 orders none with
                  | .ok true => true
                  | _ => false)) ∧
    (∀ m : ℕ, m ∈ genSlots settings.slot_duration_minutes 600 1140 ↔
      ∃ k : ℕ, m = 600 + 30 * k ∧ m < 1140) := by
  obtain ⟨hws, hwe⟩ := parse_working_hours date hdate
  constructor
  · simp only [get_available_timeslots, hws, hwe]
    exact filterAvailable_eq date orders ht _
  · intro m
    exact mem_genSlots30 1140 600 1140 m (by omega)

theorem get_available_timeslots_spec_witness :
    get_available_timeslots "2099-06-15" [] =
      .ok (((genSlots settings.slot_duration_minutes 600 1140).map fmtHM).filter
        (fun s => match check_timeslot_availability "2099-06-15" s 120 [] none with
                  | .ok true => true
                  | _ => false)) ∧
    (∀ m : ℕ, m ∈ genSlots settings.slot_duration_minutes 600 1140 ↔
      ∃ k : ℕ, m = 600 + 30 * k ∧ m < 1140) :=
  get_available_timeslots_spec "2099-06-15" [] (by decide)
    (fun o ho => absurd ho (List.not_mem_nil o))
